import Mathlib

set_option autoImplicit false

deriving instance DecidableEq for Except

namespace SSD1322

/-!
Shallow embedding of the ssd1322_rs driver: the command codec
(src/instruction.rs), the controller-session transmission paths
(src/lib.rs), and the packed frame buffer (src/lib.rs, mod frame).
Machine integers (u8, u16, usize) are modelled as Nat; u16 wrapping
arithmetic is made explicit (release-mode wrapping semantics) where the
source arithmetic can wrap.
-/

/-- Errors that can occur in commands (instruction.rs, enum CommandError). -/
inductive CommandError
  | OutOfRange
  | BadTableLength
deriving DecidableEq

/-- Maximum supported display width in pixels (instruction.rs consts). -/
def NUM_PIXEL_COLS : Nat := 480

/-- Maximum supported display height in pixels (instruction.rs consts). -/
def NUM_PIXEL_ROWS : Nat := 128

/-- Number of display RAM column addresses (instruction.rs consts). -/
def NUM_BUF_COLS : Nat := NUM_PIXEL_COLS / 4

/-- Highest valid pixel row index (instruction.rs consts). -/
def PIXEL_ROW_MAX : Nat := NUM_PIXEL_ROWS - 1

/-- Highest valid display RAM column address (instruction.rs consts). -/
def BUF_COL_MAX : Nat := NUM_BUF_COLS - 1

/-- Encoded command (instruction.rs, struct CommandData): the opcode byte,
the 2-byte parameter array, and the number of meaningful parameter bytes.
The source stores `data: [u8; 2]`; we model it as a list that `prepare`
always fills with exactly two entries. -/
structure CommandData where
  cmd : Nat
  data : List Nat
  len : Nat
deriving DecidableEq

/-- Address increment orientation (instruction.rs, enum IncrementAxis). -/
inductive IncrementAxis
  | Horizontal
  | Vertical
deriving DecidableEq

/-- Column address remapping (instruction.rs, enum ColumnRemap). -/
inductive ColumnRemap
  | Forward
  | Reverse
deriving DecidableEq

/-- Data nibble remapping (instruction.rs, enum NibbleRemap). -/
inductive NibbleRemap
  | Reverse
  | Forward
deriving DecidableEq

/-- COM line scanning order (instruction.rs, enum ComScanDirection). -/
inductive ComScanDirection
  | RowZeroFirst
  | RowZeroLast
deriving DecidableEq

/-- COM line layout (instruction.rs, enum ComLayout). -/
inductive ComLayout
  | Progressive
  | Interlaced
  | DualProgressive
deriving DecidableEq

/-- Display mode (instruction.rs, enum DisplayMode). -/
inductive DisplayMode
  | BlankDark
  | BlankBright
  | Normal
  | Inverse
deriving DecidableEq

/-- VDD regulator selection (instruction.rs, enum FunctionSelection). -/
inductive FunctionSelection
  | ExternalVDD
  | InternalVDD
deriving DecidableEq

/-- Command intents (instruction.rs, enum Command). Numeric parameters are
u8 values in the source, modelled as Nat. -/
inductive Command
  | EnableGrayScaleTable
  | SetColumnAddress (start stop : Nat)
  | WriteRam
  | ReadRam
  | SetRowAddress (start stop : Nat)
  | SetRemapping (increment_axis : IncrementAxis) (column_remap : ColumnRemap)
      (nibble_remap : NibbleRemap) (com_scan_direction : ComScanDirection)
      (com_layout : ComLayout)
  | SetStartLine (line : Nat)
  | SetDisplayOffset (line : Nat)
  | SetDisplayMode (mode : DisplayMode)
  | EnablePartialDisplay (start stop : Nat)
  | DisablePartialDisplay
  | FunctionSelect (mode : FunctionSelection)
  | SetSleepMode (ena : Bool)
  | SetPhaseLengths (phase_1 phase_2 : Nat)
  | SetClockFoscDivset (fosc divset : Nat)
  | SetDisplayEnhancements (ena_external_vsl ena_enahnced_low_gs_quality : Bool)
  | SetSecondPrechargePeriod (period : Nat)
  | SetDefaultGrayScaleTable
  | SetPreChargeVoltage (voltage : Nat)
  | SetComDeselectVoltage (voltage : Nat)
  | SetContrastCurrent (current : Nat)
  | SetMasterContrast (contrast : Nat)
  | SetMuxRatio (ratio : Nat)
  | SetCommandLock (ena : Bool)
deriving DecidableEq

/-- Encoding of a command intent (instruction.rs, Command::prepare).
Each arm mirrors the corresponding match arm of the source, including the
`ok_command!` macro convention: the parameter array always carries two
bytes, of which only the first `len` are meaningful. Range patterns such
as `16..=NUM_PIXEL_ROWS` on u8 become explicit bound checks (the lower
bound 0 is implicit for Nat just as for u8). -/
def Command.prepare : Command → Except CommandError CommandData
  | .EnableGrayScaleTable => .ok ⟨0x00, [0, 0], 0⟩
  | .SetColumnAddress start stop =>
      if start ≤ BUF_COL_MAX ∧ stop ≤ BUF_COL_MAX then .ok ⟨0x15, [start, stop], 2⟩
      else .error .OutOfRange
  | .SetRowAddress start stop =>
      if start ≤ PIXEL_ROW_MAX ∧ stop ≤ PIXEL_ROW_MAX then .ok ⟨0x75, [start, stop], 2⟩
      else .error .OutOfRange
  | .WriteRam => .ok ⟨0x5C, [0, 0], 0⟩
  | .ReadRam => .ok ⟨0x5D, [0, 0], 0⟩
  | .SetRemapping increment_axis column_remap nibble_remap com_scan_direction com_layout =>
      let ia : Nat := match increment_axis with
        | .Horizontal => 0x00
        | .Vertical => 0x01
      let cr : Nat := match column_remap with
        | .Forward => 0x00
        | .Reverse => 0x02
      let nr : Nat := match nibble_remap with
        | .Reverse => 0x00
        | .Forward => 0x04
      let csd : Nat := match com_scan_direction with
        | .RowZeroFirst => 0x00
        | .RowZeroLast => 0x10
      let il_dc : Nat × Nat := match com_layout with
        | .Progressive => (0x00, 0x01)
        | .Interlaced => (0x20, 0x01)
        | .DualProgressive => (0x00, 0x11)
      .ok ⟨0xA0, [ia ||| cr ||| nr ||| csd ||| il_dc.1, il_dc.2], 2⟩
  | .SetStartLine line =>
      if line ≤ PIXEL_ROW_MAX then .ok ⟨0xA1, [line, 0], 1⟩ else .error .OutOfRange
  | .SetDisplayOffset line =>
      if line ≤ PIXEL_ROW_MAX then .ok ⟨0xA2, [line, 0], 1⟩ else .error .OutOfRange
  | .SetDisplayMode mode =>
      .ok ⟨(match mode with
            | .BlankDark => 0xA4
            | .BlankBright => 0xA5
            | .Normal => 0xA6
            | .Inverse => 0xA7), [0, 0], 0⟩
  | .EnablePartialDisplay start stop =>
      if start ≤ PIXEL_ROW_MAX ∧ stop ≤ PIXEL_ROW_MAX ∧ start ≤ stop then
        .ok ⟨0xA8, [start, stop], 2⟩
      else .error .OutOfRange
  | .DisablePartialDisplay => .ok ⟨0xA9, [0, 0], 0⟩
  | .FunctionSelect mode =>
      .ok ⟨0xAB, [(match mode with
                   | .ExternalVDD => 0
                   | .InternalVDD => 1), 0], 1⟩
  | .SetSleepMode ena =>
      .ok ⟨(match ena with
            | true => 0xAE
            | false => 0xAF), [0, 0], 0⟩
  | .SetPhaseLengths phase_1 phase_2 =>
      if (5 ≤ phase_1 ∧ phase_1 ≤ 31) ∧ (3 ≤ phase_2 ∧ phase_2 ≤ 15) then
        let p1 : Nat := (phase_1 - 1) >>> 1
        let p2 : Nat := 0xF0 &&& (phase_2 <<< 4)
        .ok ⟨0xB1, [p1 ||| p2, 0], 1⟩
      else .error .OutOfRange
  | .SetClockFoscDivset fosc divset =>
      if fosc ≤ 15 ∧ divset ≤ 10 then .ok ⟨0xB3, [(fosc <<< 4) ||| divset, 0], 1⟩
      else .error .OutOfRange
  | .SetDisplayEnhancements ena_external_vsl ena_enahnced_low_gs_quality =>
      let vsl : Nat := match ena_external_vsl with
        | true => 0xA0
        | false => 0xA2
      let gs : Nat := match ena_enahnced_low_gs_quality with
        | true => 0xFD
        | false => 0xB5
      .ok ⟨0xB4, [vsl, gs], 2⟩
  | .SetSecondPrechargePeriod period =>
      if period ≤ 15 then .ok ⟨0xB6, [period, 0], 1⟩ else .error .OutOfRange
  | .SetDefaultGrayScaleTable => .ok ⟨0xB9, [0, 0], 0⟩
  | .SetPreChargeVoltage voltage =>
      if voltage ≤ 31 then .ok ⟨0xBB, [voltage, 0], 1⟩ else .error .OutOfRange
  | .SetComDeselectVoltage voltage =>
      if voltage ≤ 7 then .ok ⟨0xBE, [voltage, 0], 1⟩ else .error .OutOfRange
  | .SetContrastCurrent current => .ok ⟨0xC1, [current, 0], 1⟩
  | .SetMasterContrast contrast =>
      if contrast ≤ 15 then .ok ⟨0xC7, [contrast, 0], 1⟩ else .error .OutOfRange
  | .SetMuxRatio ratio =>
      if 16 ≤ ratio ∧ ratio ≤ NUM_PIXEL_ROWS then .ok ⟨0xCA, [ratio - 1, 0], 1⟩
      else .error .OutOfRange
  | .SetCommandLock ena =>
      .ok ⟨0xFD, [(match ena with
                   | true => 0x16
                   | false => 0x12), 0], 1⟩

/-- Display orientation (lib.rs, enum Orientation). The source gives the
variants discriminant values 0x06 and 0x14, used only as labels; the bytes
actually transmitted come from `Command.SetRemapping`. -/
inductive Orientation
  | Standard
  | Inverted
deriving DecidableEq

/-- Driver error type (lib.rs, enum Error). `Pin` carries `Infallible` in
the source: its payload type is empty, so the variant is uninhabited here
exactly as in the source. -/
inductive Error
  | Comm
  | Pin (e : Empty)
  | CommandErr (e : CommandError)
deriving DecidableEq

/-- Transmission fault model for the SPI transport: `ok n` tells whether
the n-th `spi.write` call of the session succeeds. The source transport is
all-or-nothing per write call (spec section 6), so a failing write
transmits nothing. -/
structure Transport where
  ok : Nat → Bool

/-- One successful `spi.write` call as seen on the wire: `isData` is the
state of the DC pin during the write (false = command, true = data), and
`bytes` the bytes written. -/
structure TxChunk where
  isData : Bool
  bytes : List Nat
deriving DecidableEq

/-- Transmission log: how many `spi.write` calls have been attempted and
the chunks successfully written so far. -/
structure TxLog where
  count : Nat
  chunks : List TxChunk
deriving DecidableEq

/-- Empty transmission log. -/
def TxLog.empty : TxLog := ⟨0, []⟩

/-- A transport that never fails. -/
def allOk : Transport := ⟨fun _ => true⟩

/-- A transport whose every write fails. -/
def failAll : Transport := ⟨fun _ => false⟩

/-- One `spi.write(bytes)` call under the fault model: on success the
chunk is appended to the log, on failure nothing is transmitted. -/
def spiWrite (t : Transport) (log : TxLog) (isData : Bool) (bytes : List Nat) :
    Except Unit TxLog :=
  if t.ok log.count then .ok ⟨log.count + 1, log.chunks ++ [⟨isData, bytes⟩]⟩
  else .error ()

/-- Driver session state that the modelled operations read or mutate
(lib.rs, struct SSD1322 fields `inverted` and `orientation`; the spi, dc,
rst and power handles are modelled by the transport fault model and the
transmission log). -/
structure Session where
  inverted : Bool
  orientation : Orientation
deriving DecidableEq

/-- Command transmission (lib.rs, SSD1322::write_command): DC low, write
the opcode byte; if `len != 0`, DC high and write the first `len`
parameter bytes. Returns the updated log with the result. -/
def write_command (t : Transport) (log : TxLog) (command : CommandData) :
    TxLog × Except Error Unit :=
  match spiWrite t log false [command.cmd] with
  | .error _ => (log, .error .Comm)
  | .ok log1 =>
    if command.len ≠ 0 then
      match spiWrite t log1 true (command.data.take command.len) with
      | .error _ => (log1, .error .Comm)
      | .ok log2 => (log2, .ok ())
    else (log1, .ok ())

/-- Orientation change (lib.rs, SSD1322::set_orientation): stores the new
orientation into the session, then prepares and transmits the remapping
command for the chosen preset. Mirrors the source statement order: the
field assignment happens before any transmission. -/
def set_orientation (t : Transport) (s : Session) (log : TxLog) (orientation : Orientation) :
    Session × TxLog × Except Error Unit :=
  let s1 : Session := { s with orientation := orientation }
  let cmd : Command :=
    if orientation = Orientation.Inverted then
      Command.SetRemapping .Horizontal .Reverse .Forward .RowZeroFirst .DualProgressive
    else
      Command.SetRemapping .Horizontal .Forward .Forward .RowZeroLast .DualProgressive
  match cmd.prepare with
  | .error e => (s1, log, .error (.CommandErr e))
  | .ok cd =>
    match write_command t log cd with
    | (log1, r) => (s1, log1, r)

/-- Wrapping u16 subtraction (release-mode semantics of `a - b` on u16). -/
def sub16 (a b : Nat) : Nat := (a % 65536 + (65536 - b % 65536)) % 65536

/-- Wrapping u16 addition (release-mode semantics of `a + b` on u16). -/
def add16 (a b : Nat) : Nat := (a + b) % 65536

/-- Column start address computed by set_address_window:
`((480 - width + start_x) / 2) / 4` in u16 arithmetic. -/
def awColumnStart (start_x width : Nat) : Nat :=
  (add16 (sub16 480 width) start_x) / 2 / 4

/-- Column end address computed by set_address_window:
`(column_start + width / 4) - 1` in u16 arithmetic. -/
def awColumnEnd (start_x width : Nat) : Nat :=
  sub16 (add16 (awColumnStart start_x width) (width / 4)) 1

/-- Address-window selection (lib.rs, SSD1322::set_address_window).
Computes the column range from the fixed 480-pixel width, performs the
session-layer range check, and only then prepares and transmits
SetColumnAddress followed by SetRowAddress; the `as u8` casts become
`% 256`. Arguments are u16 values modelled as Nat. -/
def set_address_window (t : Transport) (log : TxLog)
    (start_x start_y width height : Nat) : TxLog × Except Error Unit :=
  let column_start := awColumnStart start_x width
  let column_end := awColumnEnd start_x width
  if column_start > BUF_COL_MAX ∨ column_end > BUF_COL_MAX ∨
      start_y > PIXEL_ROW_MAX ∨ height > PIXEL_ROW_MAX then
    (log, .error (.CommandErr .OutOfRange))
  else
    match (Command.SetColumnAddress (column_start % 256) (column_end % 256)).prepare with
    | .error e => (log, .error (.CommandErr e))
    | .ok cd =>
      match write_command t log cd with
      | (log1, .error e) => (log1, .error e)
      | (log1, .ok _) =>
        match (Command.SetRowAddress (start_y % 256) (sub16 height 1 % 256)).prepare with
        | .error e => (log1, .error (.CommandErr e))
        | .ok cd2 => write_command t log1 cd2

/-- Initialization command list (lib.rs, SSD1322::init_default, the
`commands` array), in source order. -/
def initCommands (inverted : Bool) : List Command :=
  [ Command.SetCommandLock false,
    Command.SetSleepMode true,
    Command.SetRemapping .Horizontal .Forward .Forward .RowZeroLast .DualProgressive,
    Command.SetStartLine 0,
    Command.SetDisplayOffset 0,
    Command.SetDisplayMode (if inverted then DisplayMode.Inverse else DisplayMode.Normal),
    Command.FunctionSelect .InternalVDD,
    Command.SetPhaseLengths 5 15,
    Command.SetClockFoscDivset 10 1,
    Command.SetDisplayEnhancements true true,
    Command.SetSecondPrechargePeriod 8,
    Command.SetDefaultGrayScaleTable,
    Command.SetPreChargeVoltage 31,
    Command.SetComDeselectVoltage 7,
    Command.SetContrastCurrent 0x3C,
    Command.SetMasterContrast 0xA,
    Command.SetMuxRatio 0x3F,
    Command.DisablePartialDisplay,
    Command.SetSleepMode false ]

/-- Sequential preparation of the commands array: the source builds the
array with `prepare()?` on each element, so the first encoding error
aborts with that error before anything is transmitted. -/
def prepareList : List Command → Except CommandError (List CommandData)
  | [] => .ok []
  | c :: rest =>
    match c.prepare with
    | .error e => .error e
    | .ok cd =>
      match prepareList rest with
      | .error e => .error e
      | .ok cds => .ok (cd :: cds)

/-- Transmission loop of init_default (lib.rs, the `for CommandData ...`
loop): DC low, write the opcode, then DC high and write the first `len`
data bytes. The source guard is `!data.is_empty()` on a `[u8; 2]` array,
which is always true, so the data write happens even when `len == 0`
(writing an empty slice). -/
def txInitLoop (t : Transport) : TxLog → List CommandData → TxLog × Except Error Unit
  | log, [] => (log, .ok ())
  | log, cd :: rest =>
    match spiWrite t log false [cd.cmd] with
    | .error _ => (log, .error .Comm)
    | .ok log1 =>
      match spiWrite t log1 true (cd.data.take cd.len) with
      | .error _ => (log1, .error .Comm)
      | .ok log2 => txInitLoop t log2 rest

/-- Default initialization (lib.rs, SSD1322::init_default) after
hard_reset: hard_reset itself drives only the reset and power pins and
the delay (no SPI traffic), so it does not appear in the transmission
log. Prepares the fixed command list, transmits it, then applies the
configured orientation via set_orientation. -/
def init_default (t : Transport) (s : Session) (log : TxLog) :
    Session × TxLog × Except Error Unit :=
  match prepareList (initCommands s.inverted) with
  | .error e => (s, log, .error (.CommandErr e))
  | .ok cds =>
    match txInitLoop t log cds with
    | (log1, .error e) => (s, log1, .error e)
    | (log1, .ok _) => set_orientation t s log1 s.orientation

/-- Buffer size helper (lib.rs, calculate_buffer_size). -/
def calculate_buffer_size (width height : Nat) : Nat := (width * height) / 2

/-- Packed 4bpp frame buffer (lib.rs, struct Frame). The source buffer is
`[u8; N]`; it is modelled as a list of bytes, whose length plays the role
of N. -/
structure Frame where
  width : Nat
  height : Nat
  buffer : List Nat
deriving DecidableEq

/-- Pixel write (lib.rs, Frame::set_pixel). `x` and `y` are u8 in the
source, `color` a Gray4 whose raw value (`RawU4::into_inner`) is a 4-bit
quantity, modelled by reducing the argument mod 16 up front. Mirrors the
source: bounds check on width/height, byte index, buffer-length guard,
then read-modify-write of one nibble. -/
def Frame.set_pixel (f : Frame) (x y color : Nat) : Frame :=
  let c0 := color % 16
  if x ≥ f.width ∨ y ≥ f.height then f
  else
    let idx := (y * f.width + x) / 2
    if idx ≥ f.buffer.length then f
    else
      let c := c0 &&& 0x0F
      if x % 2 = 0 then
        { f with buffer := f.buffer.set idx ((f.buffer.getD idx 0 &&& 0x0F) ||| (c <<< 4)) }
      else
        { f with buffer := f.buffer.set idx ((f.buffer.getD idx 0 &&& 0xF0) ||| c) }

/-- Pixel read-back used to state decoding properties: mirrors exactly
the packing convention of Frame::set_pixel (byte `(y*width + x) / 2`,
high nibble for even x, low nibble for odd x). The source has no getter;
this is the inverse of the write path only. -/
def Frame.get_pixel (f : Frame) (x y : Nat) : Nat :=
  let idx := (y * f.width + x) / 2
  let b := f.buffer.getD idx 0
  if x % 2 = 0 then b >>> 4 else b &&& 0x0F

/-- Bulk clear (lib.rs, DrawTarget::clear for Frame): packs the 4-bit
color into both nibbles and overwrites every byte of the buffer; the
source returns `Ok(())` unconditionally, modelled by always returning
`.ok` of the new frame. -/
def Frame.clear (f : Frame) (color : Nat) : Except Unit Frame :=
  let c := color % 16
  let packed := (c <<< 4) ||| c
  .ok { f with buffer := f.buffer.map (fun _ => packed) }

/-- Expected wire traffic of a successful init_default run, written out
byte for byte in source order: for each array command an opcode chunk and
a parameter chunk of its meaningful bytes (empty for parameterless
commands, because the init loop always performs the data write), then the
remap command transmitted by the final set_orientation call. -/
def expectedInitChunks (inverted : Bool) (o : Orientation) : List TxChunk :=
  [⟨false, [0xFD]⟩, ⟨true, [0x12]⟩,
   ⟨false, [0xAE]⟩, ⟨true, []⟩,
   ⟨false, [0xA0]⟩, ⟨true, [0x14, 0x11]⟩,
   ⟨false, [0xA1]⟩, ⟨true, [0x00]⟩,
   ⟨false, [0xA2]⟩, ⟨true, [0x00]⟩,
   ⟨false, [if inverted then 0xA7 else 0xA6]⟩, ⟨true, []⟩,
   ⟨false, [0xAB]⟩, ⟨true, [0x01]⟩,
   ⟨false, [0xB1]⟩, ⟨true, [0xF2]⟩,
   ⟨false, [0xB3]⟩, ⟨true, [0xA1]⟩,
   ⟨false, [0xB4]⟩, ⟨true, [0xA0, 0xFD]⟩,
   ⟨false, [0xB6]⟩, ⟨true, [0x08]⟩,
   ⟨false, [0xB9]⟩, ⟨true, []⟩,
   ⟨false, [0xBB]⟩, ⟨true, [0x1F]⟩,
   ⟨false, [0xBE]⟩, ⟨true, [0x07]⟩,
   ⟨false, [0xC1]⟩, ⟨true, [0x3C]⟩,
   ⟨false, [0xC7]⟩, ⟨true, [0x0A]⟩,
   ⟨false, [0xCA]⟩, ⟨true, [0x3E]⟩,
   ⟨false, [0xA9]⟩, ⟨true, []⟩,
   ⟨false, [0xAF]⟩, ⟨true, []⟩,
   ⟨false, [0xA0]⟩,
   ⟨true, if o = Orientation.Inverted then [0x06, 0x11] else [0x14, 0x11]⟩]


/-! Helper lemmas shared by the claim theorems. -/

/-- On a fault-free transport, every spi write succeeds and appends its chunk. -/
theorem spiWrite_allOk (log : TxLog) (d : Bool) (bs : List Nat) :
    spiWrite allOk log d bs = .ok ⟨log.count + 1, log.chunks ++ [⟨d, bs⟩]⟩ := rfl

/-- On a fault-free transport, write_command of a two-parameter command
appends the opcode chunk and the two-byte parameter chunk. -/
theorem write_command_allOk_two (log : TxLog) (c b0 b1 : Nat) :
    write_command allOk log ⟨c, [b0, b1], 2⟩ =
      (⟨log.count + 2, log.chunks ++ [⟨false, [c]⟩, ⟨true, [b0, b1]⟩]⟩, .ok ()) := by
  unfold write_command
  rw [spiWrite_allOk]
  show ((⟨log.count + 1 + 1, log.chunks ++ [⟨false, [c]⟩] ++ [⟨true, [b0, b1]⟩]⟩ : TxLog),
        (Except.ok () : Except Error Unit)) = _
  rw [List.append_assoc]
  rfl

/-- On an arbitrary transport, write_command of a two-parameter command
either appends its two chunks and succeeds, or fails with Comm. -/
theorem write_command_two_cases (t : Transport) (log : TxLog) (c b0 b1 : Nat) :
    write_command t log ⟨c, [b0, b1], 2⟩ =
      (⟨log.count + 2, log.chunks ++ [⟨false, [c]⟩, ⟨true, [b0, b1]⟩]⟩, .ok ()) ∨
    (write_command t log ⟨c, [b0, b1], 2⟩).2 = .error .Comm := by
  unfold write_command spiWrite
  by_cases h1 : t.ok log.count = true
  · by_cases h2 : t.ok (log.count + 1) = true
    · left
      simp only [h1, h2, if_true]
      simp [List.append_assoc]
    · right
      simp only [h1, h2, if_true, if_false]
      simp
  · right
    simp [h1]

/-- C1 (counterexample): with the stated formula, set_address_window(0, 0, 256, 64)
computes column_end = 28 + 256/4 - 1 = 91, so the transmitted bytes are not the
column pair (28, 59) the claim states. -/
theorem C1_column_end_counterexample :
    awColumnStart 0 256 = 28 ∧ awColumnStart 0 256 + 256 / 4 - 1 = 91 ∧
    (set_address_window allOk TxLog.empty 0 0 256 64).1.chunks ≠
      [⟨false, [0x15]⟩, ⟨true, [28, 59]⟩, ⟨false, [0x75]⟩, ⟨true, [0, 63]⟩] := by decide

/-- C1 (amended): set_address_window(0, 0, 256, 64) succeeds and transmits
column_start = 28, column_end = 91 (per the stated formula), row_start = 0,
row_end = 63. -/
theorem C1_set_address_window_256x64 :
    (set_address_window allOk TxLog.empty 0 0 256 64).2 = .ok () ∧
    (set_address_window allOk TxLog.empty 0 0 256 64).1.chunks =
      [⟨false, [0x15]⟩, ⟨true, [28, 91]⟩, ⟨false, [0x75]⟩, ⟨true, [0, 63]⟩] := by decide

/-- C2 (counterexample): set_address_window(0, 10, 256, 32) transmits the row
range 10..31 (end row = height - 1 = 31), not the claimed
start_y + height - 1 = 41. -/
theorem C2_row_end_counterexample :
    (set_address_window allOk TxLog.empty 0 10 256 32).1.chunks =
      [⟨false, [0x15]⟩, ⟨true, [28, 91]⟩, ⟨false, [0x75]⟩, ⟨true, [10, 31]⟩] ∧
    10 + 32 - 1 = 41 ∧ (31 : Nat) ≠ 41 := by decide

/-- C2 (amended): for u16 arguments with height ≥ 1, set_address_window fails
with OutOfRange, transmitting nothing, exactly when the computed column_start
or column_end exceeds 119, or start_y exceeds 127, or height exceeds 127 (the
session-layer check, which runs before any transmission and hence before the
codec-layer check); otherwise it succeeds and transmits the column range
followed by the row range start_y .. height - 1. -/
theorem C2_address_window_row_range (log : TxLog) (start_x start_y width height : Nat)
    (hsx : start_x ≤ 65535) (hsy : start_y ≤ 65535) (hw : width ≤ 65535)
    (hh1 : 1 ≤ height) (hh : height ≤ 65535) :
    (awColumnStart start_x width > 119 ∨ awColumnEnd start_x width > 119 ∨
        start_y > 127 ∨ height > 127 →
      set_address_window allOk log start_x start_y width height =
        (log, .error (.CommandErr .OutOfRange))) ∧
    (awColumnStart start_x width ≤ 119 → awColumnEnd start_x width ≤ 119 →
        start_y ≤ 127 → height ≤ 127 →
      set_address_window allOk log start_x start_y width height =
        (⟨log.count + 4, log.chunks ++
            [⟨false, [0x15]⟩,
             ⟨true, [awColumnStart start_x width, awColumnEnd start_x width]⟩,
             ⟨false, [0x75]⟩, ⟨true, [start_y, height - 1]⟩]⟩, .ok ())) := by
  have hB : BUF_COL_MAX = 119 := rfl
  have hP : PIXEL_ROW_MAX = 127 := rfl
  constructor
  · intro hfail
    simp only [set_address_window, hB, hP]
    rw [if_pos hfail]
  · intro hcs hce hsy127 hht127
    have hmod_cs : awColumnStart start_x width % 256 = awColumnStart start_x width :=
      Nat.mod_eq_of_lt (by omega)
    have hmod_ce : awColumnEnd start_x width % 256 = awColumnEnd start_x width :=
      Nat.mod_eq_of_lt (by omega)
    have hmod_sy : start_y % 256 = start_y := Nat.mod_eq_of_lt (by omega)
    have hsub : sub16 height 1 = height - 1 := by unfold sub16; omega
    have hmod_h : (height - 1) % 256 = height - 1 := Nat.mod_eq_of_lt (by omega)
    have hprep1 : (Command.SetColumnAddress (awColumnStart start_x width)
        (awColumnEnd start_x width)).prepare =
        .ok ⟨0x15, [awColumnStart start_x width, awColumnEnd start_x width], 2⟩ := by
      simp only [Command.prepare, hB]
      rw [if_pos ⟨hcs, hce⟩]
    have hprep2 : (Command.SetRowAddress start_y (height - 1)).prepare =
        .ok ⟨0x75, [start_y, height - 1], 2⟩ := by
      simp only [Command.prepare, hP]
      rw [if_pos ⟨hsy127, by omega⟩]
    simp only [set_address_window, hB, hP]
    rw [if_neg (by omega)]
    rw [hmod_cs, hmod_ce, hmod_sy, hsub, hmod_h]
    simp only [hprep1, hprep2, write_command_allOk_two]
    simp only [Prod.mk.injEq, TxLog.mk.injEq, List.append_assoc]
    exact ⟨⟨trivial, rfl⟩, trivial⟩

/-- C2 (witness): a concrete successful call with start_y = 10, height = 32
transmits rows 10..31, and a concrete failing call (height = 300) transmits
nothing. -/
theorem C2_address_window_row_range_witness :
    set_address_window allOk TxLog.empty 0 10 256 32 =
      (⟨4, [⟨false, [0x15]⟩, ⟨true, [28, 91]⟩, ⟨false, [0x75]⟩, ⟨true, [10, 31]⟩]⟩, .ok ()) ∧
    set_address_window allOk TxLog.empty 0 0 256 300 =
      (TxLog.empty, .error (.CommandErr .OutOfRange)) := by
  constructor
  · have h := (C2_address_window_row_range TxLog.empty 0 10 256 32 (by decide) (by decide)
      (by decide) (by decide) (by decide)).2 (by decide) (by decide) (by decide) (by decide)
    simpa using h
  · have h := (C2_address_window_row_range TxLog.empty 0 0 256 300 (by decide) (by decide)
      (by decide) (by decide) (by decide)).1 (by decide)
    simpa using h

/-- C4: for every u8 mux ratio in 16..=128, prepare yields opcode 0xCA with a
single parameter byte ratio - 1; for every u8 ratio outside that range it
fails with OutOfRange. -/
theorem C4_mux_ratio_encoding (ratio : Nat) (h8 : ratio ≤ 255) :
    (16 ≤ ratio ∧ ratio ≤ 128 →
      (Command.SetMuxRatio ratio).prepare = .ok ⟨0xCA, [ratio - 1, 0], 1⟩) ∧
    (ratio < 16 ∨ 128 < ratio →
      (Command.SetMuxRatio ratio).prepare = .error .OutOfRange) := by
  have hN : NUM_PIXEL_ROWS = 128 := rfl
  constructor
  · intro hin
    simp only [Command.prepare, hN]
    rw [if_pos hin]
  · intro hout
    simp only [Command.prepare, hN]
    rw [if_neg (by omega)]

/-- C4 (witness): ratio 100 encodes to 0xCA with parameter 99; ratios 0 and
129 fail with OutOfRange. -/
theorem C4_mux_ratio_encoding_witness :
    (Command.SetMuxRatio 100).prepare = .ok ⟨0xCA, [99, 0], 1⟩ ∧
    (Command.SetMuxRatio 0).prepare = .error .OutOfRange ∧
    (Command.SetMuxRatio 129).prepare = .error .OutOfRange :=
  ⟨(C4_mux_ratio_encoding 100 (by decide)).1 (by decide),
   (C4_mux_ratio_encoding 0 (by decide)).2 (by decide),
   (C4_mux_ratio_encoding 129 (by decide)).2 (by decide)⟩

/-- C3: a successful init_default run on a fault-free transport, after
hard_reset (which produces no SPI traffic), transmits exactly the
documented ordered command sequence and nothing else: lock-disable,
sleep-enable, remap, start-line 0, display-offset 0, display mode per the
configured inversion, function-select internal VDD, phase lengths,
clock/divset, both enhancements, second precharge, default grayscale,
precharge voltage, COM-deselect voltage, contrast current, master
contrast, mux ratio, disable-partial, sleep-disable, then the remap for
the configured orientation. -/
theorem C3_init_default_sequence (inverted : Bool) (o : Orientation) :
    (init_default allOk ⟨inverted, o⟩ TxLog.empty).2.2 = .ok () ∧
    (init_default allOk ⟨inverted, o⟩ TxLog.empty).2.1.chunks =
      expectedInitChunks inverted o := by
  cases inverted <;> cases o <;> exact ⟨rfl, rfl⟩

/-- C5: switching orientation to Inverted and then to Standard makes the
second call transmit exactly the bytes a standalone Standard call
transmits, and vice versa; the standard preset is horizontal increment,
forward column remap, forward nibble remap, last-row-first COM scan,
dual-progressive COM layout (encoding to remap bytes 0x14, 0x11), and the
inverted preset differs only in reverse column remap and first-row-first
COM scan (encoding to 0x06, 0x11). -/
theorem C5_orientation_roundtrip (s : Session) :
    ((set_orientation allOk
        (set_orientation allOk s TxLog.empty .Inverted).1
        (set_orientation allOk s TxLog.empty .Inverted).2.1 .Standard).2.1.chunks.drop
          (set_orientation allOk s TxLog.empty .Inverted).2.1.chunks.length =
      (set_orientation allOk s TxLog.empty .Standard).2.1.chunks) ∧
    ((set_orientation allOk
        (set_orientation allOk s TxLog.empty .Standard).1
        (set_orientation allOk s TxLog.empty .Standard).2.1 .Inverted).2.1.chunks.drop
          (set_orientation allOk s TxLog.empty .Standard).2.1.chunks.length =
      (set_orientation allOk s TxLog.empty .Inverted).2.1.chunks) ∧
    (set_orientation allOk s TxLog.empty .Standard).2.1.chunks =
      [⟨false, [0xA0]⟩, ⟨true, [0x14, 0x11]⟩] ∧
    (set_orientation allOk s TxLog.empty .Inverted).2.1.chunks =
      [⟨false, [0xA0]⟩, ⟨true, [0x06, 0x11]⟩] ∧
    (Command.SetRemapping .Horizontal .Forward .Forward .RowZeroLast
      .DualProgressive).prepare = .ok ⟨0xA0, [0x14, 0x11], 2⟩ ∧
    (Command.SetRemapping .Horizontal .Reverse .Forward .RowZeroFirst
      .DualProgressive).prepare = .ok ⟨0xA0, [0x06, 0x11], 2⟩ :=
  ⟨rfl, rfl, rfl, rfl, rfl, rfl⟩

/-- C6 (counterexample): starting from stored orientation Standard, a
set_orientation(Inverted) call whose transport write fails returns the
communication error with the stored orientation already changed to
Inverted (and nothing transmitted), so the stored field is not unchanged
on error. -/
theorem C6_state_update_counterexample :
    (set_orientation failAll ⟨false, .Standard⟩ TxLog.empty .Inverted).2.2 =
      .error .Comm ∧
    (set_orientation failAll ⟨false, .Standard⟩ TxLog.empty .Inverted).2.1.chunks = [] ∧
    (set_orientation failAll ⟨false, .Standard⟩ TxLog.empty .Inverted).1.orientation =
      .Inverted ∧
    Orientation.Inverted ≠ Orientation.Standard := by
  exact ⟨rfl, rfl, rfl, by decide⟩

/-- C6 (amended): set_orientation stores the requested orientation before
transmitting, so after any call (success or transport failure) the stored
field equals the requested orientation; when the call succeeds, the
transmitted bytes are exactly the remap command for that same
orientation, so stored state and controller agree on success, while on a
transport failure the stored field already holds the new value. -/
theorem C6_orientation_state (t : Transport) (s : Session) (log : TxLog) (o : Orientation) :
    (set_orientation t s log o).1.orientation = o ∧
    (set_orientation t s log o).1.inverted = s.inverted ∧
    ((set_orientation t s log o).2.2 = .ok () →
      (set_orientation t s log o).2.1.chunks = log.chunks ++
        [⟨false, [0xA0]⟩,
         ⟨true, if o = Orientation.Inverted then [0x06, 0x11] else [0x14, 0x11]⟩]) := by
  cases o with
  | Standard =>
    refine ⟨rfl, rfl, ?_⟩
    intro hok
    rcases write_command_two_cases t log 0xA0 0x14 0x11 with heq | herr
    · show (write_command t log ⟨0xA0, [0x14, 0x11], 2⟩).1.chunks = _
      rw [heq]
      simp
    · have hok2 : (write_command t log ⟨0xA0, [0x14, 0x11], 2⟩).2 = .ok () := hok
      rw [herr] at hok2
      simp at hok2
  | Inverted =>
    refine ⟨rfl, rfl, ?_⟩
    intro hok
    rcases write_command_two_cases t log 0xA0 0x06 0x11 with heq | herr
    · show (write_command t log ⟨0xA0, [0x06, 0x11], 2⟩).1.chunks = _
      rw [heq]
      simp
    · have hok2 : (write_command t log ⟨0xA0, [0x06, 0x11], 2⟩).2 = .ok () := hok
      rw [herr] at hok2
      simp at hok2

/-- C6 (witness): on a fault-free transport, switching to Inverted from a
Standard session transmits exactly the inverted remap bytes. -/
theorem C6_orientation_state_witness :
    (set_orientation allOk ⟨false, .Standard⟩ TxLog.empty .Inverted).2.1.chunks =
      [⟨false, [0xA0]⟩, ⟨true, [0x06, 0x11]⟩] := by
  have h := (C6_orientation_state allOk ⟨false, .Standard⟩ TxLog.empty .Inverted).2.2 rfl
  simpa using h

/-- Mapping a constant function over a list yields a replicate of its length. -/
theorem list_map_const (l : List Nat) (b : Nat) :
    l.map (fun _ => b) = List.replicate l.length b := by
  induction l with
  | nil => rfl
  | cons a t ih => simp [ih, List.replicate_succ]

/-- Reading inside the bounds of a replicate yields the replicated element. -/
theorem list_getD_replicate (n i b : Nat) (h : i < n) :
    (List.replicate n b).getD i 0 = b := by
  induction n generalizing i with
  | zero => omega
  | succ m ih =>
    cases i with
    | zero => rfl
    | succ j =>
      have hj := ih j (by omega)
      simpa [List.replicate_succ] using hj

/-- C7 (counterexample): a frame with width 3, height 1 has buffer length
3*1/2 = 1 as the claim requires, yet set_pixel at the in-bounds pixel
(2, 0) computes byte index 1, which the buffer-length guard rejects, so
nothing is written: the quantification over all frames with buffer length
width*height/2 fails when width*height is odd. -/
theorem C7_last_byte_counterexample :
    [0].length = calculate_buffer_size 3 1 ∧ 2 < 3 ∧ 0 < 1 ∧
    Frame.set_pixel ⟨3, 1, [0]⟩ 2 0 9 = ⟨3, 1, [0]⟩ ∧
    (Frame.set_pixel ⟨3, 1, [0]⟩ 2 0 9).get_pixel 2 0 ≠ 9 := by decide

/-- C7 (amended): for every frame whose buffer length is width*height/2
with width*height even, set_pixel at in-bounds u8 coordinates writes the
4-bit color into byte (y*width + x) / 2 — high nibble for even x, low
nibble for odd x — preserving the byte's other nibble and all other
bytes (the byte index is always inside the buffer). -/
theorem C7_set_pixel_packing (w ht x y c : Nat) (buf : List Nat)
    (hlen : buf.length = calculate_buffer_size w ht) (heven : w * ht % 2 = 0)
    (hx : x < w) (hy : y < ht) (hx8 : x ≤ 255) (hy8 : y ≤ 255) (hc : c < 16) :
    (y * w + x) / 2 < buf.length ∧
    Frame.set_pixel ⟨w, ht, buf⟩ x y c =
      ⟨w, ht, buf.set ((y * w + x) / 2)
        (if x % 2 = 0 then (buf.getD ((y * w + x) / 2) 0 &&& 0x0F) ||| (c <<< 4)
         else (buf.getD ((y * w + x) / 2) 0 &&& 0xF0) ||| c)⟩ := by
  have hw0 : 0 < w := lt_of_le_of_lt (Nat.zero_le x) hx
  have hht0 : 0 < ht := lt_of_le_of_lt (Nat.zero_le y) hy
  have hmul : y * w ≤ (ht - 1) * w := Nat.mul_le_mul_right w (by omega)
  have hprod : (ht - 1) * w = ht * w - w := by rw [Nat.sub_mul, Nat.one_mul]
  have hwle : w ≤ ht * w := Nat.le_mul_of_pos_left w hht0
  have hcomm : ht * w = w * ht := Nat.mul_comm ht w
  have hpos : 0 < w * ht := Nat.mul_pos hw0 hht0
  have hbound : y * w + x ≤ w * ht - 1 := by omega
  have hlen2 : buf.length = w * ht / 2 := hlen
  have hidx : (y * w + x) / 2 < buf.length := by
    rw [hlen2]
    omega
  refine ⟨hidx, ?_⟩
  have hc16 : c % 16 = c := Nat.mod_eq_of_lt hc
  have hand : c &&& 15 = c := by interval_cases c <;> rfl
  simp only [Frame.set_pixel]
  rw [if_neg (by omega : ¬(x ≥ w ∨ y ≥ ht))]
  rw [if_neg (by omega : ¬((y * w + x) / 2 ≥ buf.length))]
  rw [hc16, hand]
  split <;> rfl

/-- C7 (witness): on a 2x1 frame whose single byte already holds 5 in the
high nibble, writing color 9 at the odd pixel (1, 0) yields byte 0x59,
preserving the high nibble. -/
theorem C7_set_pixel_packing_witness :
    Frame.set_pixel ⟨2, 1, [0x50]⟩ 1 0 9 = ⟨2, 1, [0x59]⟩ := by
  have h := (C7_set_pixel_packing 2 1 1 0 9 [0x50] (by decide) (by decide) (by decide)
    (by decide) (by decide) (by decide) (by decide)).2
  rw [h]
  decide

/-- C8: set_pixel at u8 coordinates with x ≥ width or y ≥ height is a
silent no-op: it returns the frame unchanged (width, height and every
buffer byte), and set_pixel has no error channel to signal. -/
theorem C8_set_pixel_oob_noop (f : Frame) (x y c : Nat) (hx8 : x ≤ 255) (hy8 : y ≤ 255)
    (h : x ≥ f.width ∨ y ≥ f.height) :
    Frame.set_pixel f x y c = f := by
  simp only [Frame.set_pixel]
  rw [if_pos h]

/-- C8 (witness): writing at x = 5 on a 2x1 frame leaves it unchanged. -/
theorem C8_set_pixel_oob_noop_witness :
    Frame.set_pixel ⟨2, 1, [0]⟩ 5 0 3 = ⟨2, 1, [0]⟩ :=
  C8_set_pixel_oob_noop ⟨2, 1, [0]⟩ 5 0 3 (by decide) (by decide) (Or.inl (by decide))

/-- C9: for every 4-bit color c, clear succeeds and sets every buffer byte
to (c <<< 4) ||| c, every in-range pixel subsequently decodes to c, and a
second clear with the same color leaves the buffer exactly as after the
first (clear is a fixed point when applied twice). -/
theorem C9_clear_fill (f : Frame) (c : Nat) (hc : c < 16) :
    Frame.clear f c =
      .ok ⟨f.width, f.height, List.replicate f.buffer.length ((c <<< 4) ||| c)⟩ ∧
    (∀ f2, Frame.clear f c = .ok f2 → ∀ x y,
      (y * f2.width + x) / 2 < f2.buffer.length → f2.get_pixel x y = c) ∧
    (∀ f2, Frame.clear f c = .ok f2 → Frame.clear f2 c = Frame.clear f c) := by
  have hc16 : c % 16 = c := Nat.mod_eq_of_lt hc
  have hmain : Frame.clear f c =
      .ok ⟨f.width, f.height, List.replicate f.buffer.length ((c <<< 4) ||| c)⟩ := by
    simp only [Frame.clear, hc16, list_map_const]
  have hhi : ((c <<< 4) ||| c) >>> 4 = c := by interval_cases c <;> rfl
  have hlo : ((c <<< 4) ||| c) &&& 0x0F = c := by interval_cases c <;> rfl
  refine ⟨hmain, ?_, ?_⟩
  · intro f2 h2 x y hidx
    rw [hmain] at h2
    injection h2 with h3
    subst h3
    simp only [Frame.get_pixel] at hidx ⊢
    rw [list_getD_replicate _ _ _ (by simpa using hidx)]
    by_cases hpar : x % 2 = 0
    · rw [if_pos hpar, hhi]
    · rw [if_neg hpar, hlo]
  · intro f2 h2
    rw [hmain] at h2
    injection h2 with h3
    subst h3
    rw [hmain]
    simp only [Frame.clear, hc16, list_map_const, List.length_replicate]

/-- C9 (witness): clearing a 2x1 frame with color 7 fills its byte with
0x77. -/
theorem C9_clear_fill_witness :
    Frame.clear ⟨2, 1, [0xAB]⟩ 7 = .ok ⟨2, 1, [0x77]⟩ := by
  have h := (C9_clear_fill ⟨2, 1, [0xAB]⟩ 7 (by decide)).1
  rw [h]
  decide

/-- C10: set_pixel never indexes past the end of the buffer, even on a
frame whose declared width and height are inconsistent with the buffer
length (Frame::new checks nothing): whenever the computed byte index
(y*width + x) / 2 is at least the buffer length, the frame is returned
unchanged. -/
theorem C10_set_pixel_guard (f : Frame) (x y c : Nat) (hx8 : x ≤ 255) (hy8 : y ≤ 255)
    (hidx : (y * f.width + x) / 2 ≥ f.buffer.length) :
    Frame.set_pixel f x y c = f := by
  simp only [Frame.set_pixel]
  by_cases hb : x ≥ f.width ∨ y ≥ f.height
  · rw [if_pos hb]
  · rw [if_neg hb, if_pos hidx]

/-- C10 (witness): a frame declaring 4x4 pixels over a 1-byte buffer drops
the write at (3, 3), whose byte index 7 is out of range. -/
theorem C10_set_pixel_guard_witness :
    Frame.set_pixel ⟨4, 4, [0]⟩ 3 3 9 = ⟨4, 4, [0]⟩ :=
  C10_set_pixel_guard ⟨4, 4, [0]⟩ 3 3 9 (by decide) (by decide) (by decide)

end SSD1322
